import Mathlib

/-!
Verification development for the 7z benchmark wrapper (`bench-7z.py`).

The Python source is shallowly embedded: pure helper functions become Lean
functions on `List Char` / `String`; Python exceptions (uncaught `ValueError`
from `int()` / `float()`) are modelled by `Option`, with `none` meaning the
Python code raises; machine floats are modelled by `ℚ` (all numeric literals
involved are decimal, and the claims under study do not depend on binary
rounding).  Regular-expression searches are embedded as explicit leftmost
scanners; every regex in the source has its quantifier runs followed by a
disjoint character class, so greedy maximal-munch scanning is exact.
-/

namespace Bench7z

abbrev Chars := List Char

/-- ASCII decimal digit test (the character class of a digit in the source's regexes). -/
def isDigitC (c : Char) : Bool := '0' ≤ c && c ≤ '9'

/-- Whitespace as matched by a backslash-s class and by the Python strip/split
    family (ASCII model: space, tab, newline, carriage return, vertical tab, form feed). -/
def isWsC (c : Char) : Bool :=
  c == ' ' || c == '\t' || c == '\n' || c == '\r' || c == '\x0b' || c == '\x0c'

/-- Word character (backslash-w, ASCII model). -/
def isWordC (c : Char) : Bool :=
  isDigitC c || ('a' ≤ c && c ≤ 'z') || ('A' ≤ c && c ≤ 'Z') || c == '_'

/-- Does the pattern occur at the very start of the text?  Models Python
    startswith and anchored literal matching. -/
def startsWith : Chars → Chars → Bool
  | [], _ => true
  | _ :: _, [] => false
  | p :: ps, c :: cs => p == c && startsWith ps cs

/-- Consume a literal prefix, or fail. -/
def dropLit (pat : Chars) (l : Chars) : Option Chars :=
  if startsWith pat l then some (l.drop pat.length) else none

/-- Leftmost search: run the anchored matcher at every start position in turn.
    Models re.search over an anchored matcher for the same pattern. -/
def searchA {α : Type} (f : Chars → Option α) : Chars → Option α
  | [] => f []
  | c :: t =>
    match f (c :: t) with
    | some a => some a
    | none => searchA f t

/-- Substring containment, modelling Python's `in` operator on strings. -/
def containsSub (pat : String) (l : Chars) : Bool :=
  (searchA (dropLit pat.data) l).isSome

/-- Python str.strip(): drop whitespace at both ends. -/
def pyStrip (l : Chars) : Chars :=
  ((l.dropWhile isWsC).reverse.dropWhile isWsC).reverse

/-- Helper for Python str.split() with no arguments. -/
def pySplitWsAux : Chars → Chars → List Chars
  | [], acc => if acc.isEmpty then [] else [acc.reverse]
  | c :: t, acc =>
    if isWsC c then
      if acc.isEmpty then pySplitWsAux t [] else acc.reverse :: pySplitWsAux t []
    else pySplitWsAux t (c :: acc)

/-- Python str.split() with no arguments: split on whitespace runs, dropping
    empty pieces. -/
def pySplitWs (l : Chars) : List Chars := pySplitWsAux l []

/-- Helper for splitting on a single separator character. -/
def splitOnCharAux (sep : Char) : Chars → Chars → List Chars
  | [], acc => [acc.reverse]
  | c :: t, acc =>
    if c == sep then acc.reverse :: splitOnCharAux sep t []
    else splitOnCharAux sep t (c :: acc)

/-- Python str.split(sep) for a one-character separator: keeps empty pieces,
    always returns at least one piece. -/
def splitOnChar (sep : Char) (l : Chars) : List Chars := splitOnCharAux sep l []

/-- Python str.rstrip(percent sign): drop all trailing percent characters. -/
def rstripPct (l : Chars) : Chars := (l.reverse.dropWhile (· == '%')).reverse

/-- Numeric value of a digit string. -/
def natOfDigits (ds : Chars) : Nat :=
  ds.foldl (fun n c => 10 * n + (c.toNat - '0'.toNat)) 0

/-- Valid tail of a Python integer literal body: digits with single
    underscores strictly between digits. -/
def intBodyTail : Chars → Bool
  | [] => false
  | [c] => isDigitC c
  | c :: d :: t =>
    if isDigitC c then intBodyTail (d :: t)
    else if c == '_' then isDigitC d && intBodyTail (d :: t)
    else false

/-- Valid Python integer literal body (after an optional sign): nonempty,
    starts with a digit, underscores only between digits. -/
def pyIntBody (l : Chars) : Bool :=
  match l with
  | [] => false
  | c :: _ => isDigitC c && intBodyTail l

/-- Python int(str) on an ASCII token: optional surrounding whitespace,
    optional sign, digits with single underscores between digits.
    `none` models a raised ValueError. -/
def pyInt (tok : Chars) : Option ℤ :=
  match pyStrip tok with
  | '+' :: r => if pyIntBody r then some (natOfDigits (r.filter (· != '_'))) else none
  | '-' :: r => if pyIntBody r then some (-(natOfDigits (r.filter (· != '_')) : ℤ)) else none
  | r => if pyIntBody r then some (natOfDigits (r.filter (· != '_'))) else none

/-- Rational value of an integer part plus a fractional digit part. -/
def ratOfParts (ip fp : Chars) : ℚ :=
  (natOfDigits ip : ℚ) + (natOfDigits fp : ℚ) / (10 ^ fp.length)

/-- Python float(str) restricted to tokens drawn from the digits-and-dots
    character class (the only shape the source ever feeds it): valid iff the
    token has at least one digit and at most one dot.  `none` models a raised
    ValueError. -/
def pyFloatDD (tok : Chars) : Option ℚ :=
  if tok.any isDigitC && tok.count '.' ≤ 1 && tok.all (fun c => isDigitC c || c == '.') then
    match splitOnChar '.' tok with
    | [ip] => some (natOfDigits ip)
    | [ip, fp] => some (ratOfParts ip fp)
    | _ => none
  else none

/-- Maximal run of characters satisfying p, required nonempty. -/
def spanOpt (p : Char → Bool) (l : Chars) : Option (Chars × Chars) :=
  let s := l.span p
  if s.1.isEmpty then none else some s

/-- One-or-more whitespace (backslash-s-plus): requires a leading whitespace
    character and consumes the maximal whitespace run. -/
def ws1 (l : Chars) : Option Chars :=
  match l with
  | c :: t => if isWsC c then some (t.dropWhile isWsC) else none
  | [] => none

/-- Anchored matcher for the throughput token pattern
    digits, optional dot-digits, optional whitespace, then the given unit
    literal; returns the numeric value of the captured number.  Greedy
    maximal-munch is exact here: if the fractional branch is taken and the
    match then fails, the fraction-free alternative necessarily fails too
    (the next character is a dot, which is neither whitespace nor the start
    of the unit literal). -/
def numUnitAt (unit : Chars) (l : Chars) : Option ℚ :=
  match spanOpt isDigitC l with
  | none => none
  | some (ds, r1) =>
    let fr : Chars × Chars :=
      match r1 with
      | '.' :: r =>
        let s := r.span isDigitC
        if s.1.isEmpty then ([], r1) else s
      | _ => ([], r1)
    match dropLit unit (fr.2.dropWhile isWsC) with
    | some _ => some (ratOfParts ds fr.1)
    | none => none

/-- re.search for a number followed by the given unit, leftmost match. -/
def tokenSearch (unit : String) (l : Chars) : Option ℚ :=
  searchA (numUnitAt unit.data) l

/-- Embeds parse_throughput: find an MB/s token, else a KB/s token divided
    by 1024, else nothing. -/
def parse_throughput (text : String) : Option ℚ :=
  match tokenSearch "MB/s" text.data with
  | some v => some v
  | none =>
    match tokenSearch "KB/s" text.data with
    | some v => some (v / 1024)
    | none => none

/-- One compress or decompress metric group of a benchmark table row
    (the keys speed / usage / r_u / rating of the source's row dicts). -/
structure CompMetrics where
  speed : ℤ
  usage : ℤ
  r_u : ℤ
  rating : ℤ
deriving DecidableEq

/-- One per-dictionary-size row of the benchmark table.  The compress and
    decompress groups are absent (not zero) when the source dict omits them. -/
structure BenchRow where
  dict : Nat
  compress : Option CompMetrics
  decompress : Option CompMetrics
deriving DecidableEq

/-- The totals row (usage / r_u / rating keys of the totals dict), set
    atomically when at least three numeric tokens convert. -/
structure Totals where
  usage : ℤ
  r_u : ℤ
  rating : ℤ
deriving DecidableEq

/-- One timing entry: seconds and percent. -/
structure TimingEntry where
  seconds : ℚ
  percent : Nat
deriving DecidableEq

/-- A value of the system_info dict: a number or a list of numbers. -/
inductive SysVal
  | num (n : ℤ)
  | list (l : List ℤ)
deriving DecidableEq

/-- Insert or overwrite a key in an insertion-ordered association list,
    modelling assignment into a Python dict. -/
def upsert {β : Type} (key : String) (v : β) : List (String × β) → List (String × β)
  | [] => [(key, v)]
  | (k, w) :: t => if k = key then (k, v) :: t else (k, w) :: upsert key v t

/-- The structured result of parse_7z_benchmark_output.  The averages dict's
    two four-key groups are each set atomically, so they are modelled as two
    optional groups. -/
structure ParsedReport where
  benchmark_table : List BenchRow
  averages_compress : Option CompMetrics
  averages_decompress : Option CompMetrics
  totals : Option Totals
  system_info : List (String × SysVal)
  timing : List (String × TimingEntry)
deriving DecidableEq

/-- Option-valued map, modelling a Python list comprehension whose element
    expression may raise. -/
def mapOpt {α β : Type} (f : α → Option β) : List α → Option (List β)
  | [] => some []
  | a :: t =>
    match f a with
    | none => none
    | some b =>
      match mapOpt f t with
      | none => none
      | some bs => some (b :: bs)

/-- Anchored matcher for the pattern: literal "RAM size:", whitespace,
    digits (captured), whitespace, literal "MB". -/
def mRamSizeAt (s : Chars) : Option Nat :=
  match dropLit "RAM size:".data s with
  | none => none
  | some r1 =>
    match ws1 r1 with
    | none => none
    | some r2 =>
      match spanOpt isDigitC r2 with
      | none => none
      | some (ds, r3) =>
        match ws1 r3 with
        | none => none
        | some r4 =>
          match dropLit "MB".data r4 with
          | none => none
          | some _ => some (natOfDigits ds)

/-- Anchored matcher: a literal label, whitespace, then captured digits. -/
def mLabelNumAt (label : String) (s : Chars) : Option Nat :=
  match dropLit label.data s with
  | none => none
  | some r1 =>
    match ws1 r1 with
    | none => none
    | some r2 =>
      match spanOpt isDigitC r2 with
      | none => none
      | some (ds, _) => some (natOfDigits ds)

/-- Anchored matcher for the pattern: literal "RAM usage:", whitespace,
    digits (captured), whitespace, literal "MB". -/
def mRamUsageAt (s : Chars) : Option Nat :=
  match dropLit "RAM usage:".data s with
  | none => none
  | some r1 =>
    match ws1 r1 with
    | none => none
    | some r2 =>
      match spanOpt isDigitC r2 with
      | none => none
      | some (ds, r3) =>
        match ws1 r3 with
        | none => none
        | some r4 =>
          match dropLit "MB".data r4 with
          | none => none
          | some _ => some (natOfDigits ds)

/-- Anchored CPU-frequency line match: digits, literal "T", whitespace,
    literal "CPU Freq (MHz):", whitespace, rest of line.  Returns the
    thread-count group (digits plus "T") and the rest. -/
def mCpuFreq (line : Chars) : Option (Chars × Chars) :=
  match spanOpt isDigitC line with
  | none => none
  | some (ds, r1) =>
    match dropLit "T".data r1 with
    | none => none
    | some r2 =>
      match ws1 r2 with
      | none => none
      | some r3 =>
        match dropLit "CPU Freq (MHz):".data r3 with
        | none => none
        | some r4 =>
          match ws1 r4 with
          | none => none
          | some r5 => some (ds ++ ['T'], r5)

/-- Anchored timing line match: word (captured), whitespace, literal "Time",
    whitespace, "=", whitespace, digits-and-dots token (captured), whitespace,
    "=", whitespace, digits (captured), "%".  Conversion of the seconds token
    happens at the use site, as in the source. -/
def mTiming (line : Chars) : Option (Chars × Chars × Nat) :=
  match spanOpt isWordC line with
  | none => none
  | some (w, r1) =>
    match ws1 r1 with
    | none => none
    | some r2 =>
      match dropLit "Time".data r2 with
      | none => none
      | some r3 =>
        match ws1 r3 with
        | none => none
        | some r4 =>
          match dropLit "=".data r4 with
          | none => none
          | some r5 =>
            match ws1 r5 with
            | none => none
            | some r6 =>
              match spanOpt (fun c => isDigitC c || c == '.') r6 with
              | none => none
              | some (numTok, r7) =>
                match ws1 r7 with
                | none => none
                | some r8 =>
                  match dropLit "=".data r8 with
                  | none => none
                  | some r9 =>
                    match ws1 r9 with
                    | none => none
                    | some r10 =>
                      match spanOpt isDigitC r10 with
                      | none => none
                      | some (ds, r11) =>
                        match dropLit "%".data r11 with
                        | none => none
                        | some _ => some (w, numTok, natOfDigits ds)

/-- Lowercase an ASCII word and pack it into a key string. -/
def toLowerStr (l : Chars) : String := String.mk (l.map Char.toLower)

/-- System-info and timing extraction for one line, threading the two dicts.
    `none` models an uncaught ValueError from int()/float() on a malformed
    token.  The checks run in source order: RAM size, RAM usage, CPU Freq,
    then the timing labels. -/
def sysLineStep (st : List (String × SysVal) × List (String × TimingEntry)) (line : Chars) :
    Option (List (String × SysVal) × List (String × TimingEntry)) :=
  let si1 :=
    if containsSub "RAM size:" line then
      let siA :=
        match searchA mRamSizeAt line with
        | some n => upsert "ram_mb" (SysVal.num n) st.1
        | none => st.1
      match searchA (mLabelNumAt "# CPU hardware threads:") line with
      | some n => upsert "cpu_threads" (SysVal.num n) siA
      | none => siA
    else st.1
  let si2 :=
    if containsSub "RAM usage:" line then
      let siA :=
        match searchA mRamUsageAt line with
        | some n => upsert "ram_usage_mb" (SysVal.num n) si1
        | none => si1
      match searchA (mLabelNumAt "# Benchmark threads:") line with
      | some n => upsert "benchmark_threads" (SysVal.num n) siA
      | none => siA
    else si1
  let si3opt :=
    if containsSub "CPU Freq" line then
      match mCpuFreq line with
      | some (g1, g2) =>
        match mapOpt (fun f => pyInt (rstripPct f)) (pySplitWs (pyStrip g2)) with
        | some vals => some (upsert ("cpu_freq_" ++ String.mk g1) (SysVal.list vals) si2)
        | none => none
      | none => some si2
    else some si2
  match si3opt with
  | none => none
  | some si3 =>
    if containsSub "Kernel  Time" line || containsSub "User    Time" line
        || containsSub "Process Time" line || containsSub "Global  Time" line then
      match mTiming line with
      | some (w, numTok, pct) =>
        match pyFloatDD numTok with
        | some secs => some (si3, upsert (toLowerStr w) ⟨secs, pct⟩ st.2)
        | none => none
      | none => some (si3, st.2)
    else some (si3, st.2)

/-- The source's first pass: scan every line independently for system info
    and timing. -/
def sysPass : List Chars →
    (List (String × SysVal) × List (String × TimingEntry)) →
    Option (List (String × SysVal) × List (String × TimingEntry))
  | [], st => some st
  | line :: rest, st =>
    match sysLineStep st line with
    | none => none
    | some st2 => sysPass rest st2

/-- State of the benchmark-table loop: accumulated rows, the two averages
    groups, and the totals. -/
structure TableState where
  table : List BenchRow
  avrC : Option CompMetrics
  avrD : Option CompMetrics
  tot : Option Totals
deriving DecidableEq

/-- All maximal digit runs of a string, left to right (re.findall of a
    digits-plus pattern). -/
def findallDigitsAux : Chars → Chars → List Chars
  | [], acc => if acc.isEmpty then [] else [acc.reverse]
  | c :: t, acc =>
    if isDigitC c then findallDigitsAux t (c :: acc)
    else if acc.isEmpty then findallDigitsAux t []
    else acc.reverse :: findallDigitsAux t []

/-- re.findall of a digits-plus pattern. -/
def findallDigits (l : Chars) : List Chars := findallDigitsAux l []

/-- re.findall of the pattern: digits-and-dots run, optional percent sign. -/
def findallNumPctAux : Chars → Chars → List Chars
  | [], acc => if acc.isEmpty then [] else [acc.reverse]
  | c :: t, acc =>
    if isDigitC c || c == '.' then findallNumPctAux t (c :: acc)
    else if c == '%' && !acc.isEmpty then (acc.reverse ++ ['%']) :: findallNumPctAux t []
    else if acc.isEmpty then findallNumPctAux t []
    else acc.reverse :: findallNumPctAux t []

/-- re.findall of the pattern: digits-and-dots run, optional percent sign. -/
def findallNumPct (l : Chars) : List Chars := findallNumPctAux l []

/-- The averages row handler: split on the pipe, take the first four digit
    runs of each half (the first half with its leading "Avr:" sliced off);
    a half with fewer than four runs leaves that group unchanged.  Digit runs
    convert safely, so this handler cannot raise. -/
def handleAvr (line : Chars) (st : TableState) : TableState :=
  let parts := splitOnChar '|' line
  let st1 :=
    match parts with
    | p0 :: _ =>
      match findallDigits (p0.drop 4) with
      | a :: b :: c :: d :: _ =>
        { st with avrC := some ⟨natOfDigits a, natOfDigits b, natOfDigits c, natOfDigits d⟩ }
      | _ => st
    | [] => st
  match parts with
  | _ :: p1 :: _ =>
    match findallDigits p1 with
    | a :: b :: c :: d :: _ =>
      { st1 with avrD := some ⟨natOfDigits a, natOfDigits b, natOfDigits c, natOfDigits d⟩ }
    | _ => st1
  | _ => st1

/-- Anchored totals-line match for the pattern: literal "Tot:", whitespace,
    then a captured run of digits, whitespace and percent signs.  The
    embedded capture may carry extra leading whitespace relative to the
    greedy original; the capture is only ever fed to findallNumPct, which is
    insensitive to that. -/
def mTotMatch (line : Chars) : Option Chars :=
  match dropLit "Tot:".data line with
  | none => none
  | some r1 =>
    match r1 with
    | c :: d :: t =>
      if isWsC c && (isDigitC d || isWsC d || d == '%') then
        some ((d :: t).takeWhile (fun x => isDigitC x || isWsC x || x == '%'))
      else none
    | _ => none

/-- The totals row handler: if at least three tokens were found, convert the
    first three with int(); a token carrying a dot or percent sign makes
    int() raise, modelled by `none`. -/
def handleTot (line : Chars) (st : TableState) : Option TableState :=
  match mTotMatch line with
  | none => some st
  | some cap =>
    match findallNumPct cap with
    | a :: b :: c :: _ =>
      match pyInt a with
      | none => none
      | some u =>
        match pyInt b with
        | none => none
        | some r =>
          match pyInt c with
          | none => none
          | some g => some { st with tot := some ⟨u, r, g⟩ }
    | _ => some st

/-- Anchored data-row match: digits (captured), ":", whitespace, rest of
    line (captured). -/
def mDataRow (line : Chars) : Option (Chars × Chars) :=
  match spanOpt isDigitC line with
  | none => none
  | some (ds, r1) =>
    match dropLit ":".data r1 with
    | none => none
    | some r2 =>
      match ws1 r2 with
      | none => none
      | some r3 => some (ds, r3)

/-- One metric group of a data row: strip, split on whitespace, and if at
    least four tokens are present convert them with int() (which may raise,
    modelled by the outer `none`); fewer than four tokens mean the group is
    absent (inner `none`). -/
def parseMetricGroup (part : Chars) : Option (Option CompMetrics) :=
  match pySplitWs (pyStrip part) with
  | a :: b :: c :: d :: _ =>
    match pyInt a with
    | none => none
    | some x =>
      match pyInt b with
      | none => none
      | some y =>
        match pyInt c with
        | none => none
        | some z =>
          match pyInt d with
          | none => none
          | some w => some (some ⟨x, y, z, w⟩)
  | _ => some none

/-- The data-row handler: split the remainder on the pipe into up to two
    metric groups and append the row. -/
def handleDataRow (ds rest : Chars) (st : TableState) : Option TableState :=
  let parts := splitOnChar '|' rest
  match (match parts with
         | p0 :: _ => parseMetricGroup p0
         | [] => some none) with
  | none => none
  | some comp =>
    match (match parts with
           | _ :: p1 :: _ => parseMetricGroup p1
           | _ => some none) with
    | none => none
    | some decomp =>
      some { st with table := st.table ++ [⟨natOfDigits ds, comp, decomp⟩] }

/-- The benchmark-table loop on the lines after the header, in source order:
    skip blank, unit-legend ("KiB/s") and "Compressing" lines; skip lines
    containing both "--" and "|"; handle "Avr:", "Tot:" and digit-colon data
    rows; stop at any remaining line that is non-blank and does not start
    with whitespace; skip everything else. -/
def tableLoop : List Chars → TableState → Option TableState
  | [], st => some st
  | line :: rest, st =>
    if (pyStrip line).isEmpty || containsSub "KiB/s" line || containsSub "Compressing" line then
      tableLoop rest st
    else if containsSub "--" line && containsSub "|" line then
      tableLoop rest st
    else if startsWith "Avr:".data line then
      tableLoop rest (handleAvr line st)
    else if startsWith "Tot:".data line then
      match handleTot line st with
      | none => none
      | some st2 => tableLoop rest st2
    else
      match mDataRow line with
      | some (ds, g2) =>
        match handleDataRow ds g2 st with
        | none => none
        | some st2 => tableLoop rest st2
      | none =>
        match line with
        | [] => tableLoop rest st
        | c :: _ =>
          if !(pyStrip line).isEmpty && !isWsC c then some st
          else tableLoop rest st

/-- Find the header line (the first line containing "Dict", "Speed" and
    "Usage") and return the lines after it. -/
def findHeaderSuffix : List Chars → Option (List Chars)
  | [] => none
  | line :: rest =>
    if containsSub "Dict" line && containsSub "Speed" line && containsSub "Usage" line then
      some rest
    else findHeaderSuffix rest

/-- Embeds parse_7z_benchmark_output: split into lines, run the system-info
    and timing pass over every line, then locate the table header and run the
    table loop on the lines after it.  `none` models an uncaught ValueError
    escaping the function. -/
def parse_7z_benchmark_output (text : String) : Option ParsedReport :=
  let lines := splitOnChar '\n' text.data
  match sysPass lines ([], []) with
  | none => none
  | some (si, tm) =>
    match findHeaderSuffix lines with
    | none => some ⟨[], none, none, none, si, tm⟩
    | some body =>
      match tableLoop body ⟨[], none, none, none⟩ with
      | none => none
      | some st => some ⟨st.table, st.avrC, st.avrD, st.tot, si, tm⟩

/-- A JSON-like value of a sample dict.  A sample dict key that is absent is
    a missing association-list entry, distinct from a `null` value. -/
inductive JVal
  | null
  | int (z : ℤ)
  | rat (q : ℚ)
  | str (s : String)
  | report (r : ParsedReport)
deriving DecidableEq

/-- One per-iteration sample dict, as an insertion-ordered association list
    mirroring the source's dict literals. -/
abbrev Sample := List (String × JVal)

/-- Python round(x, 6) on the measured values.  Python rounds the nearest
    double half-to-even; the claims under study never depend on the rounded
    value, only on its presence, so nearest-with-half-up on ℚ stands in. -/
def round6 (q : ℚ) : ℚ := ((q * 1000000 + 1/2).floor : ℚ) / 1000000

/-- The outcome of one external invocation, as seen by the orchestrator:
    either the timeout fired, or the tool completed with an elapsed time, an
    exit code and its two output streams. -/
inductive Outcome
  | timeout
  | completed (elapsed : ℚ) (returncode : ℤ) (stdout stderr : String)
deriving DecidableEq

/-- The sample dict appended on timeout: run index, all numeric fields null,
    and the "timeout" note; no benchmark and no raw_log key at all. -/
def timeoutSample (i : Nat) : Sample :=
  [("run", JVal.int i),
   ("elapsed_s", JVal.null),
   ("returncode", JVal.null),
   ("throughput_MB_s", JVal.null),
   ("note", JVal.str "timeout")]

/-- The sample dict appended on normal completion.  elapsed is never None on
    this path (it always comes back from the runner), so its conditional in
    the source always takes the rounded branch; raw_log is the log file name,
    or null when raw output is kept inline. -/
def normalSample (keepRaw : Bool) (rawName : String) (i : Nat) (elapsed : ℚ) (rc : ℤ)
    (tp : Option ℚ) (bench : ParsedReport) : Sample :=
  [("run", JVal.int i),
   ("elapsed_s", JVal.rat (round6 elapsed)),
   ("returncode", JVal.int rc),
   ("throughput_MB_s", match tp with | some v => JVal.rat (round6 v) | none => JVal.null),
   ("benchmark", JVal.report bench),
   ("raw_log", if keepRaw then JVal.null else JVal.str rawName)]

/-- One loop iteration of main: on timeout append the degraded sample and
    continue; otherwise parse throughput from combined stdout and stderr,
    parse the benchmark report from stdout (whose uncaught ValueError, if
    any, propagates: `none`), and assemble the normal sample. -/
def iterSample (oracle : Nat → Outcome) (keepRaw : Bool) (names : Nat → String) (i : Nat) :
    Option Sample :=
  match oracle i with
  | .timeout => some (timeoutSample i)
  | .completed e rc out err =>
    match parse_7z_benchmark_output out with
    | none => none
    | some bench =>
      some (normalSample keepRaw (names i) i e rc (parse_throughput (out ++ "\n" ++ err)) bench)

/-- The iteration loop over a list of 1-based run indices, in order. -/
def runIters (oracle : Nat → Outcome) (keepRaw : Bool) (names : Nat → String) :
    List Nat → Option (List Sample)
  | [] => some []
  | i :: rest =>
    match iterSample oracle keepRaw names i with
    | none => none
    | some s =>
      match runIters oracle keepRaw names rest with
      | none => none
      | some ss => some (s :: ss)

/-- The run indices of range(1, iterations + 1): 1 to k for k at least 1,
    empty otherwise. -/
def iterIndices (k : ℤ) : List Nat := (List.range k.toNat).map (· + 1)

/-- The orchestration loop of main for a resolved iteration count. -/
def mainLoop (k : ℤ) (oracle : Nat → Outcome) (keepRaw : Bool) (names : Nat → String) :
    Option (List Sample) :=
  runIters oracle keepRaw names (iterIndices k)

/-- The dict returned by safe_stats: count plus optional mean, median and
    standard deviation keys. -/
structure SafeStatsResult where
  count : Nat
  mean : Option ℚ
  median : Option ℚ
  stdev : Option ℚ
deriving DecidableEq

/-- Insert into a sorted list (ascending). -/
def insertSorted (x : ℚ) : List ℚ → List ℚ
  | [] => [x]
  | y :: t => if x ≤ y then x :: y :: t else y :: insertSorted x t

/-- Sort ascending (the sorted() underlying statistics.median). -/
def sortQ (l : List ℚ) : List ℚ := l.foldr insertSorted []

/-- statistics.mean: sum divided by length. -/
def pyMean (l : List ℚ) : ℚ := l.sum / l.length

/-- statistics.median: middle element of the sorted list, or the average of
    the two middle elements for even length. -/
def pyMedian (l : List ℚ) : ℚ :=
  let s := sortQ l
  let n := s.length
  if n % 2 = 1 then s.getD (n / 2) 0
  else (s.getD (n / 2 - 1) 0 + s.getD (n / 2) 0) / 2

/-- Embeds safe_stats.  statistics.stdev computes a square root, which is
    irrational, so it is an external parameter here; the source calls it only
    when the list has more than one element, sets 0.0 itself for a single
    element, and returns only the count for the empty list. -/
def safe_stats (stdevFn : List ℚ → ℚ) (values : List ℚ) : SafeStatsResult :=
  if values.isEmpty then ⟨0, none, none, none⟩
  else
    ⟨values.length, some (pyMean values), some (pyMedian values),
     some (if 1 < values.length then stdevFn values else 0)⟩

/-- The core fields of the results record main writes: the sample list and
    the two aggregate statistics (platform metadata, command line and
    parameters are external collaborators and carry no logic). -/
structure Results where
  samples : List Sample
  elapsed_stats : SafeStatsResult
  throughput_stats : SafeStatsResult
deriving DecidableEq

/-- Look a key up in a sample dict. -/
def fieldOf (s : Sample) (key : String) : Option JVal :=
  (s.find? (fun p => p.1 == key)).map (fun p => p.2)

/-- The non-null numeric values of one field across samples, mirroring the
    source's list comprehensions over s[key] (the key is always present in
    both sample shapes; its value is numeric or null). -/
def numericVals (key : String) (samples : List Sample) : List ℚ :=
  samples.filterMap (fun s =>
    match fieldOf s key with
    | some (JVal.rat q) => some q
    | _ => none)

/-- Embeds the orchestration core of main: run the loop, then aggregate
    elapsed and throughput statistics over the non-null values.  `none`
    models an uncaught exception aborting main. -/
def runMain (stdevFn : List ℚ → ℚ) (k : ℤ) (oracle : Nat → Outcome) (keepRaw : Bool)
    (names : Nat → String) : Option Results :=
  match mainLoop k oracle keepRaw names with
  | none => none
  | some samples =>
    some ⟨samples, safe_stats stdevFn (numericVals "elapsed_s" samples),
          safe_stats stdevFn (numericVals "throughput_MB_s" samples)⟩

/-- When the iteration loop completes, it yields one sample per run index. -/
theorem runIters_length (oc : Nat → Outcome) (kr : Bool) (nm : Nat → String) :
    ∀ (l : List Nat) (ss : List Sample), runIters oc kr nm l = some ss → ss.length = l.length := by
  intro l
  induction l with
  | nil =>
    intro ss h
    simp only [runIters] at h
    cases h
    rfl
  | cons i rest ih =>
    intro ss h
    simp only [runIters] at h
    cases h1 : iterSample oc kr nm i with
    | none => rw [h1] at h; cases h
    | some s =>
      rw [h1] at h
      cases h2 : runIters oc kr nm rest with
      | none => rw [h2] at h; cases h
      | some ss2 =>
        rw [h2] at h
        cases h
        simp [ih ss2 h2]

/-- When the iteration loop completes, the j-th sample is exactly the sample
    built for the j-th run index. -/
theorem runIters_get? (oc : Nat → Outcome) (kr : Bool) (nm : Nat → String) :
    ∀ (l : List Nat) (ss : List Sample), runIters oc kr nm l = some ss →
      ∀ (j i : Nat), l.get? j = some i → ss.get? j = iterSample oc kr nm i := by
  intro l
  induction l with
  | nil =>
    intro ss h j i hj
    simp at hj
  | cons a rest ih =>
    intro ss h j i hj
    simp only [runIters] at h
    cases h1 : iterSample oc kr nm a with
    | none => rw [h1] at h; cases h
    | some s =>
      rw [h1] at h
      cases h2 : runIters oc kr nm rest with
      | none => rw [h2] at h; cases h
      | some ss2 =>
        rw [h2] at h
        cases h
        cases j with
        | zero =>
          simp only [List.get?_cons_zero, Option.some.injEq] at hj
          subst hj
          simpa using h1.symm
        | succ j =>
          simp only [List.get?_cons_succ] at hj ⊢
          exact ih ss2 h2 j i hj

/-- Both sample shapes carry their run index in the run field. -/
theorem iterSample_run (oc : Nat → Outcome) (kr : Bool) (nm : Nat → String) (i : Nat)
    (s : Sample) (h : iterSample oc kr nm i = some s) :
    fieldOf s "run" = some (JVal.int i) := by
  cases ho : oc i with
  | timeout =>
    have hs : iterSample oc kr nm i = some (timeoutSample i) := by
      simp [iterSample, ho]
    rw [hs] at h
    cases h
    rfl
  | completed e rc out err =>
    cases hb : parse_7z_benchmark_output out with
    | none =>
      have hs : iterSample oc kr nm i = none := by
        simp [iterSample, ho, hb]
      rw [hs] at h
      cases h
    | some bench =>
      have hs : iterSample oc kr nm i =
          some (normalSample kr (nm i) i e rc (parse_throughput (out ++ "\n" ++ err)) bench) := by
        simp [iterSample, ho, hb]
      rw [hs] at h
      cases h
      rfl

/-- The run-index list of range(1, k + 1) has length k for nonnegative k. -/
theorem iterIndices_length (k : ℤ) : (iterIndices k).length = k.toNat := by
  simp [iterIndices]

/-- The j-th run index is j + 1. -/
theorem iterIndices_get? (k : ℤ) (j : Nat) (hj : j < k.toNat) :
    (iterIndices k).get? j = some (j + 1) := by
  simp [iterIndices, List.get?_eq_getElem?, List.getElem?_map, List.getElem?_range, hj]

/-- C1: the Report Parser is claimed total — any numeric token that fails to
    parse should be field-absent, never fatal.  The code disagrees: on an
    empty input it indeed returns an all-absent report, but a table data row
    whose metric tokens are not integers makes the unguarded int() conversion
    raise a ValueError that escapes the parser (modelled by `none`). -/
theorem c1_parser_raises_on_malformed_row_token :
    parse_7z_benchmark_output "" = some ⟨[], none, none, none, [], []⟩ ∧
    parse_7z_benchmark_output "Dict Speed Usage\n22: a b c d" = none := by
  constructor
  · rfl
  · rfl

/-- C2 counterexample: with iteration_count equal to 0 the program does not
    reject the configuration — no check exists — and instead completes
    normally, producing a results record with an empty sample list and
    count-0 statistics. -/
theorem c2_counterexample_zero_iterations_completes :
    runMain (fun _ => 0) 0 (fun _ => Outcome.timeout) false (fun _ => "") =
      some ⟨[], ⟨0, none, none, none⟩, ⟨0, none, none, none⟩⟩ := by
  rfl

/-- C2 (amended): if the resolved iteration_count is below 1, the iteration
    loop body never runs, so no invocation of the external tool is attempted;
    but the configuration is not rejected: the program completes normally with
    an empty sample sequence and count-0 statistics. -/
theorem c2_low_iteration_count_not_rejected (stdevFn : List ℚ → ℚ) (k : ℤ) (hk : k < 1)
    (oracle : Nat → Outcome) (keepRaw : Bool) (names : Nat → String) :
    mainLoop k oracle keepRaw names = some [] ∧
    runMain stdevFn k oracle keepRaw names =
      some ⟨[], ⟨0, none, none, none⟩, ⟨0, none, none, none⟩⟩ := by
  have h0 : k.toNat = 0 := by omega
  have hm : mainLoop k oracle keepRaw names = some [] := by
    simp [mainLoop, iterIndices, h0, runIters]
  refine ⟨hm, ?_⟩
  unfold runMain
  rw [hm]
  rfl

/-- C2 witness: a concrete below-1 iteration count. -/
theorem c2_witness :
    mainLoop (-3) (fun _ => Outcome.timeout) false (fun _ => "") = some [] ∧
    runMain (fun _ => 0) (-3) (fun _ => Outcome.timeout) false (fun _ => "") =
      some ⟨[], ⟨0, none, none, none⟩, ⟨0, none, none, none⟩⟩ :=
  c2_low_iteration_count_not_rejected (fun _ => 0) (-3) (by decide)
    (fun _ => Outcome.timeout) false (fun _ => "")

/-- C6: safe_stats returns count equal to the length with mean and median
    populated on any non-empty sequence, an explicit 0.0 standard deviation
    for a one-element sequence, and a bare count-0 record with no mean,
    median or stdev for the empty sequence. -/
theorem c6_safe_stats_shape (stdevFn : List ℚ → ℚ) (values : List ℚ) :
    (values ≠ [] →
      (safe_stats stdevFn values).count = values.length ∧
      (safe_stats stdevFn values).mean.isSome = true ∧
      (safe_stats stdevFn values).median.isSome = true) ∧
    (values.length = 1 → (safe_stats stdevFn values).stdev = some 0) ∧
    (values = [] → safe_stats stdevFn values = ⟨0, none, none, none⟩) := by
  refine ⟨?_, ?_, ?_⟩
  · intro hne
    have he : values.isEmpty = false := by
      cases values with
      | nil => exact absurd rfl hne
      | cons a t => rfl
    simp [safe_stats, he]
  · intro h1
    have he : values.isEmpty = false := by
      cases values with
      | nil => simp at h1
      | cons a t => rfl
    simp [safe_stats, he, h1]
  · intro he
    subst he
    rfl

/-- C6 witness: a one-element sequence and the empty sequence. -/
theorem c6_witness :
    ((safe_stats (fun _ => 0) [(5 : ℚ)]).count = 1 ∧
      (safe_stats (fun _ => 0) [(5 : ℚ)]).mean.isSome = true ∧
      (safe_stats (fun _ => 0) [(5 : ℚ)]).median.isSome = true) ∧
    (safe_stats (fun _ => 0) [(5 : ℚ)]).stdev = some 0 ∧
    safe_stats (fun _ => 0) ([] : List ℚ) = ⟨0, none, none, none⟩ :=
  ⟨by
    have h := (c6_safe_stats_shape (fun _ => 0) [(5 : ℚ)]).1 (by simp)
    simpa using h,
   (c6_safe_stats_shape (fun _ => 0) [(5 : ℚ)]).2.1 (by simp),
   (c6_safe_stats_shape (fun _ => 0) ([] : List ℚ)).2.2 rfl⟩

/-- C7: a report containing a valid table header followed by the data row
    22:       6185   100   6040   6018  |      34848   100   3001   3000
    parses to one benchmark-table row with dictionary size 22 and the two
    four-field metric groups split on the pipe. -/
theorem c7_data_row_roundtrip :
    parse_7z_benchmark_output
        "Dict       Speed Usage    R/U Rating  |     Speed Usage    R/U Rating\n22:       6185   100   6040   6018  |      34848   100   3001   3000" =
      some ⟨[⟨22, some ⟨6185, 100, 6040, 6018⟩, some ⟨34848, 100, 3001, 3000⟩⟩],
            none, none, none, [], []⟩ := by
  rfl

/-- C3: for any resolved iteration count k at least 1, whenever the
    orchestration loop produces a sample sequence it has length exactly k,
    and the j-th record (0-based) carries run index j + 1, so the sequence is
    in execution order; this holds for any pattern of timeouts, since both
    the timeout and the normal branch append exactly one record. -/
theorem c3_orchestrator_produces_k_samples (k : ℤ) (hk : 1 ≤ k)
    (oracle : Nat → Outcome) (keepRaw : Bool) (names : Nat → String)
    (samples : List Sample) (h : mainLoop k oracle keepRaw names = some samples) :
    samples.length = k.toNat ∧
      ∀ j : Nat, j < k.toNat →
        ∃ s : Sample, samples.get? j = some s ∧ fieldOf s "run" = some (JVal.int (j + 1)) := by
  have hlen := runIters_length oracle keepRaw names _ _ h
  rw [iterIndices_length] at hlen
  refine ⟨hlen, ?_⟩
  intro j hj
  have hget := runIters_get? oracle keepRaw names _ _ h j (j + 1) (iterIndices_get? k j hj)
  cases hq : samples.get? j with
  | none =>
    rw [List.get?_eq_none] at hq
    omega
  | some s =>
    rw [hq] at hget
    exact ⟨s, rfl, iterSample_run oracle keepRaw names (j + 1) s hget.symm⟩

/-- C3 witness: three iterations, all timing out, still yield three records
    with run indices 1, 2, 3. -/
theorem c3_witness :
    [timeoutSample 1, timeoutSample 2, timeoutSample 3].length = (3 : ℤ).toNat ∧
      ∀ j : Nat, j < (3 : ℤ).toNat →
        ∃ s : Sample, [timeoutSample 1, timeoutSample 2, timeoutSample 3].get? j = some s ∧
          fieldOf s "run" = some (JVal.int (j + 1)) :=
  c3_orchestrator_produces_k_samples 3 (by decide) (fun _ => Outcome.timeout) false (fun _ => "")
    [timeoutSample 1, timeoutSample 2, timeoutSample 3] (by rfl)

/-- C4: if iteration i (1-based, within range) times out, then whenever the
    loop produces a sample sequence, the sequence still has length k — the
    run continued instead of aborting — and its (i-1)-th record is the
    degraded sample: note "timeout" and null elapsed seconds, exit code and
    throughput, with the run index preserved. -/
theorem c4_timeout_yields_degraded_sample (k : ℤ) (oracle : Nat → Outcome) (keepRaw : Bool)
    (names : Nat → String) (samples : List Sample) (i : Nat)
    (h1 : 1 ≤ i) (h2 : (i : ℤ) ≤ k) (hto : oracle i = Outcome.timeout)
    (h : mainLoop k oracle keepRaw names = some samples) :
    samples.length = k.toNat ∧
      samples.get? (i - 1) =
        some [("run", JVal.int i),
              ("elapsed_s", JVal.null),
              ("returncode", JVal.null),
              ("throughput_MB_s", JVal.null),
              ("note", JVal.str "timeout")] := by
  have hlen := runIters_length oracle keepRaw names _ _ h
  rw [iterIndices_length] at hlen
  have hj : i - 1 < k.toNat := by omega
  have hget := runIters_get? oracle keepRaw names _ _ h (i - 1) (i - 1 + 1)
    (iterIndices_get? k (i - 1) hj)
  have hi : i - 1 + 1 = i := by omega
  rw [hi] at hget
  have hs : iterSample oracle keepRaw names i = some (timeoutSample i) := by
    simp [iterSample, hto]
  rw [hs] at hget
  exact ⟨hlen, hget⟩

/-- C4 witness: the spec's example — a timeout on iteration 2 of 3 yields a
    length-3 sequence whose middle record is the degraded sample, while
    records 1 and 3 are populated normally (they carry a parsed report and no
    note). -/
theorem c4_witness :
    ([normalSample false "" 1 1 0 none ⟨[], none, none, none, [], []⟩,
      timeoutSample 2,
      normalSample false "" 3 1 0 none ⟨[], none, none, none, [], []⟩].length = (3 : ℤ).toNat ∧
      [normalSample false "" 1 1 0 none ⟨[], none, none, none, [], []⟩,
       timeoutSample 2,
       normalSample false "" 3 1 0 none ⟨[], none, none, none, [], []⟩].get? (2 - 1) =
        some [("run", JVal.int 2),
              ("elapsed_s", JVal.null),
              ("returncode", JVal.null),
              ("throughput_MB_s", JVal.null),
              ("note", JVal.str "timeout")]) ∧
    fieldOf (normalSample false "" 1 1 0 none ⟨[], none, none, none, [], []⟩) "note" = none ∧
    fieldOf (normalSample false "" 3 1 0 none ⟨[], none, none, none, [], []⟩) "benchmark" =
      some (JVal.report ⟨[], none, none, none, [], []⟩) :=
  ⟨c4_timeout_yields_degraded_sample 3
      (fun i => if i = 2 then Outcome.timeout else Outcome.completed 1 0 "" "")
      false (fun _ => "")
      [normalSample false "" 1 1 0 none ⟨[], none, none, none, [], []⟩,
       timeoutSample 2,
       normalSample false "" 3 1 0 none ⟨[], none, none, none, [], []⟩]
      2 (by decide) (by decide) (by decide) (by rfl),
   by rfl, by rfl⟩

/-- C10: whenever the loop produces a sample sequence, a record born from a
    timed-out iteration has exactly the five keys run, elapsed_s, returncode,
    throughput_MB_s and note — no benchmark and no raw_log key at all —
    while a record born from a normally-completed iteration has exactly the
    six keys run, elapsed_s, returncode, throughput_MB_s, benchmark and
    raw_log, and its benchmark value is always a parsed report, never null. -/
theorem c10_sample_field_sets (k : ℤ) (oracle : Nat → Outcome) (keepRaw : Bool)
    (names : Nat → String) (samples : List Sample)
    (h : mainLoop k oracle keepRaw names = some samples) :
    ∀ j : Nat, j < samples.length →
      (oracle (j + 1) = Outcome.timeout →
        ∃ s : Sample, samples.get? j = some s ∧
          s.map Prod.fst = ["run", "elapsed_s", "returncode", "throughput_MB_s", "note"]) ∧
      (∀ e rc out err, oracle (j + 1) = Outcome.completed e rc out err →
        ∃ s : Sample, samples.get? j = some s ∧
          s.map Prod.fst =
            ["run", "elapsed_s", "returncode", "throughput_MB_s", "benchmark", "raw_log"] ∧
          ∃ r : ParsedReport, fieldOf s "benchmark" = some (JVal.report r)) := by
  intro j hjs
  have hlen := runIters_length oracle keepRaw names _ _ h
  rw [iterIndices_length] at hlen
  have hj : j < k.toNat := by omega
  have hget := runIters_get? oracle keepRaw names _ _ h j (j + 1) (iterIndices_get? k j hj)
  constructor
  · intro hto
    have hs : iterSample oracle keepRaw names (j + 1) = some (timeoutSample (j + 1)) := by
      simp [iterSample, hto]
    rw [hs] at hget
    exact ⟨timeoutSample (j + 1), hget, by rfl⟩
  · intro e rc out err hc
    cases hb : parse_7z_benchmark_output out with
    | none =>
      have hs : iterSample oracle keepRaw names (j + 1) = none := by
        simp [iterSample, hc, hb]
      rw [hs] at hget
      rw [List.get?_eq_none] at hget
      omega
    | some bench =>
      have hs : iterSample oracle keepRaw names (j + 1) =
          some (normalSample keepRaw (names (j + 1)) (j + 1) e rc
            (parse_throughput (out ++ "\n" ++ err)) bench) := by
        simp [iterSample, hc, hb]
      rw [hs] at hget
      refine ⟨_, hget, ?_, bench, ?_⟩
      · simp [normalSample]
      · rfl

/-- C10 witness: two iterations, the first timing out and the second
    completing normally, instantiating both field-set shapes. -/
theorem c10_witness :
    ((fun oracle samples =>
      (oracle (0 + 1) = Outcome.timeout →
        ∃ s : Sample, samples.get? 0 = some s ∧
          s.map Prod.fst = ["run", "elapsed_s", "returncode", "throughput_MB_s", "note"]) ∧
      (∀ e rc out err, oracle (0 + 1) = Outcome.completed e rc out err →
        ∃ s : Sample, samples.get? 0 = some s ∧
          s.map Prod.fst =
            ["run", "elapsed_s", "returncode", "throughput_MB_s", "benchmark", "raw_log"] ∧
          ∃ r : ParsedReport, fieldOf s "benchmark" = some (JVal.report r)))
      (fun i => if i = 1 then Outcome.timeout else Outcome.completed 1 0 "" "")
      [timeoutSample 1, normalSample false "" 2 1 0 none ⟨[], none, none, none, [], []⟩]) ∧
    ((fun oracle samples =>
      (oracle (1 + 1) = Outcome.timeout →
        ∃ s : Sample, samples.get? 1 = some s ∧
          s.map Prod.fst = ["run", "elapsed_s", "returncode", "throughput_MB_s", "note"]) ∧
      (∀ e rc out err, oracle (1 + 1) = Outcome.completed e rc out err →
        ∃ s : Sample, samples.get? 1 = some s ∧
          s.map Prod.fst =
            ["run", "elapsed_s", "returncode", "throughput_MB_s", "benchmark", "raw_log"] ∧
          ∃ r : ParsedReport, fieldOf s "benchmark" = some (JVal.report r)))
      (fun i => if i = 1 then Outcome.timeout else Outcome.completed 1 0 "" "")
      [timeoutSample 1, normalSample false "" 2 1 0 none ⟨[], none, none, none, [], []⟩]) :=
  ⟨c10_sample_field_sets 2
      (fun i => if i = 1 then Outcome.timeout else Outcome.completed 1 0 "" "")
      false (fun _ => "")
      [timeoutSample 1, normalSample false "" 2 1 0 none ⟨[], none, none, none, [], []⟩]
      (by rfl) 0 (by decide),
   c10_sample_field_sets 2
      (fun i => if i = 1 then Outcome.timeout else Outcome.completed 1 0 "" "")
      false (fun _ => "")
      [timeoutSample 1, normalSample false "" 2 1 0 none ⟨[], none, none, none, [], []⟩]
      (by rfl) 1 (by decide)⟩

/-- C5 counterexample: the claim says every non-blank line not starting with
    whitespace (other than Avr:/Tot:/digits-colon rows, blank, unit-legend,
    "Compressing" and pure separator lines) ends the table, so no later line
    contributes.  But the separator test is substring containment: the prose
    line "End--of | section" contains both "--" and "|", is skipped, and the
    data row after it is still parsed into the table. -/
theorem c5_counterexample_containment_separator :
    parse_7z_benchmark_output
        "Dict Speed Usage\nEnd--of | section\n22:       6185   100   6040   6018  |      34848   100   3001   3000" =
      some ⟨[⟨22, some ⟨6185, 100, 6040, 6018⟩, some ⟨34848, 100, 3001, 3000⟩⟩],
            none, none, none, [], []⟩ := by
  rfl

/-- C5 (amended): in table-body parsing, a line that is blank, contains
    "KiB/s", contains "Compressing", or contains both "--" and "|" (the
    separator check is substring containment, not a pure-separator test) is
    skipped without ending the table; every other non-blank line that does
    not start with whitespace and is not an "Avr:" row, a "Tot:" row, or a
    digits-colon-whitespace data row ends table parsing immediately, and no
    later line contributes to the state. -/
theorem c5_table_line_classification (line : Chars) (rest : List Chars) (st : TableState) :
    (((pyStrip line).isEmpty || containsSub "KiB/s" line || containsSub "Compressing" line) = true
        ∨ (containsSub "--" line && containsSub "|" line) = true →
      tableLoop (line :: rest) st = tableLoop rest st) ∧
    (((pyStrip line).isEmpty || containsSub "KiB/s" line || containsSub "Compressing" line) = false →
      (containsSub "--" line && containsSub "|" line) = false →
      startsWith "Avr:".data line = false →
      startsWith "Tot:".data line = false →
      mDataRow line = none →
      isWsC (line.headD ' ') = false →
      tableLoop (line :: rest) st = some st) := by
  constructor
  · rintro (h | h)
    · simp only [tableLoop, h, if_true]
    · by_cases h0 :
        ((pyStrip line).isEmpty || containsSub "KiB/s" line || containsSub "Compressing" line) = true
      · simp only [tableLoop, h0, if_true]
      · rw [Bool.not_eq_true] at h0
        simp only [tableLoop, h0, h, if_true, Bool.false_eq_true, if_false]
  · intro h1 h2 h3 h4 h5 h6
    cases hl : line with
    | nil =>
      subst hl
      simp [pyStrip] at h1
    | cons c t =>
      subst hl
      have hne : (pyStrip (c :: t)).isEmpty = false := by
        cases he : (pyStrip (c :: t)).isEmpty with
        | false => rfl
        | true => rw [he] at h1; simp at h1
      have hc : isWsC c = false := h6
      simp only [tableLoop, h1, h2, h3, h4, h5, Bool.false_eq_true, if_false]
      simp [hne, hc]

/-- C5 witness: the containment separator line is skipped (the loop continues
    into the rest of the lines), and a prose line ends the loop with the
    state unchanged even though a data row follows it. -/
theorem c5_witness :
    tableLoop ["End--of | section".data, "22: 1 2 3 4".data] ⟨[], none, none, none⟩ =
      tableLoop ["22: 1 2 3 4".data] ⟨[], none, none, none⟩ ∧
    tableLoop ["NewSection".data, "22: 1 2 3 4".data] ⟨[], none, none, none⟩ =
      some ⟨[], none, none, none⟩ :=
  ⟨(c5_table_line_classification "End--of | section".data ["22: 1 2 3 4".data]
      ⟨[], none, none, none⟩).1 (Or.inr (by decide)),
   (c5_table_line_classification "NewSection".data ["22: 1 2 3 4".data]
      ⟨[], none, none, none⟩).2 (by decide) (by decide) (by decide) (by decide) (by decide)
      (by decide)⟩

/-- C8: whenever the combined output contains a number-MB/s token, the
    extracted legacy throughput is that token's value; with no MB/s token,
    a number-KB/s token yields its value divided by 1024; with neither token
    the result is absent.  Concretely, "123.45 MB/s" gives 123.45 and
    "987 KB/s" gives 987/1024. -/
theorem c8_throughput_extraction (t : String) :
    (∀ v : ℚ, tokenSearch "MB/s" t.data = some v → parse_throughput t = some v) ∧
    (tokenSearch "MB/s" t.data = none →
      parse_throughput t = (tokenSearch "KB/s" t.data).map (fun w => w / 1024)) ∧
    parse_throughput "Speed 123.45 MB/s ok" = some (2469 / 20) ∧
    parse_throughput "rate 987 KB/s end" = some (987 / 1024) ∧
    parse_throughput "no throughput token here" = none := by
  refine ⟨?_, ?_, by with_unfolding_all rfl, by with_unfolding_all rfl, by rfl⟩
  · intro v hv
    simp [parse_throughput, hv]
  · intro h0
    simp only [parse_throughput, h0]
    cases tokenSearch "KB/s" t.data with
    | none => rfl
    | some w => rfl

/-- C8 witness: concrete instantiations of the two token hypotheses. -/
theorem c8_witness :
    parse_throughput "x 5 MB/s" = some 5 ∧
    parse_throughput "x 10 KB/s" = some (10 / 1024) := by
  constructor
  · exact (c8_throughput_extraction "x 5 MB/s").1 5 (by with_unfolding_all rfl)
  · have h := (c8_throughput_extraction "x 10 KB/s").2.1 (by rfl)
    rw [h]
    with_unfolding_all rfl

/-- C9: when the combined text contains an MB/s token, parse_throughput
    returns the leftmost MB/s token's value and ignores every KB/s token,
    even one occurring earlier in the text (the MB/s search runs first over
    the whole text). -/
theorem c9_mb_token_beats_kb (t : String) (h : tokenSearch "MB/s" t.data ≠ none) :
    parse_throughput t = tokenSearch "MB/s" t.data := by
  cases hm : tokenSearch "MB/s" t.data with
  | none => exact absurd hm h
  | some v => simp [parse_throughput, hm]

/-- C9 witness: a KB/s token earlier in the text than two MB/s tokens; the
    result is the first MB/s token's value (7, not 9 and not 2048/1024). -/
theorem c9_witness :
    parse_throughput "first 2048 KB/s then 7 MB/s and 9 MB/s" =
      tokenSearch "MB/s" "first 2048 KB/s then 7 MB/s and 9 MB/s".data ∧
    tokenSearch "MB/s" "first 2048 KB/s then 7 MB/s and 9 MB/s".data = some 7 ∧
    tokenSearch "KB/s" "first 2048 KB/s then 7 MB/s and 9 MB/s".data = some 2048 :=
  ⟨c9_mb_token_beats_kb "first 2048 KB/s then 7 MB/s and 9 MB/s"
      (fun hc => Option.noConfusion
        ((by with_unfolding_all rfl :
            tokenSearch "MB/s" "first 2048 KB/s then 7 MB/s and 9 MB/s".data = some 7) ▸ hc)),
   by with_unfolding_all rfl, by with_unfolding_all rfl⟩

end Bench7z
